import Mathlib

/-!
Shallow embedding of the goconfig repository: the env-backed configuration
loader (`NewLoader`, `Loader.Load`, `loadEnvFile`, the functional options)
and the generic `goconfig.NewConfig` entry point.

The process environment is modelled as an ordered association list; the
filesystem as a map from path to the outcome of `os.Stat` + `godotenv.Load`;
the third-party struct binder (`env.ParseWithOptions`) as an abstract
function from the env-parser options and the environment store to either a
configuration value or an error message. Go's `(pointer, error)` return
pairs are modelled as pairs of `Option`s, one component per Go result.
-/

/-- The process environment store: an ordered association list of
key/value bindings. Lookup returns the first binding for a key. -/
abbrev EnvStore := List (String × String)

/-- Whether the store already holds a binding for key `k`
(`os.LookupEnv` presence check done by `godotenv`). -/
def containsKey (env : EnvStore) (k : String) : Bool :=
  env.any fun p => p.1 == k

/-- The current value of key `k` in the store, if any. -/
def lookupEnv (env : EnvStore) (k : String) : Option String :=
  (env.find? fun p => p.1 == k).map fun p => p.2

/-- `os.Setenv` guarded by presence, which is how `godotenv.Load` (without
overload) writes: a key already present is left untouched. -/
def setIfAbsent (env : EnvStore) (k v : String) : EnvStore :=
  if containsKey env k then env else env ++ [(k, v)]

/-- Apply one parsed file's bindings to the store, in order, with
insert-if-absent semantics. -/
def applyPairs (env : EnvStore) (pairs : List (String × String)) : EnvStore :=
  pairs.foldl (fun e p => setIfAbsent e p.1 p.2) env

/-- The outcome of accessing one source file: `os.Stat` reports that it does
not exist; or reading/parsing fails (stat permission error, I/O error,
malformed content — everything that makes `godotenv.Load` return an error);
or `godotenv` parses it into key/value bindings. -/
inductive FileStatus
  | notFound
  | readError (msg : String)
  | ok (pairs : List (String × String))
deriving DecidableEq

/-- The filesystem as seen through `os.Stat` and `godotenv.Load`. -/
abbrev FS := String → FileStatus

/-- Errors produced by `Loader.loadEnvFile`: the sentinel
`ErrSourceNotFound`, or a wrapped `godotenv.Load` failure
("failed to load env file: %w"). -/
inductive LoadFileError
  | sourceNotFound
  | loadFailed (msg : String)
deriving DecidableEq

/-- `errors.Is(err, ErrSourceNotFound)` on a `loadEnvFile` error. -/
def LoadFileError.isSourceNotFound : LoadFileError → Bool
  | .sourceNotFound => true
  | .loadFailed _ => false

/-- `Loader.loadEnvFile`: stat the file; a not-exist stat yields
`ErrSourceNotFound`; otherwise `godotenv.Load` either fails or applies the
parsed bindings to the environment, never overwriting existing keys.
Returns the updated store together with the Go error, mirroring the side
effect on the process environment plus the `error` result. -/
def loadEnvFile (fs : FS) (env : EnvStore) (file : String) :
    EnvStore × Option LoadFileError :=
  match fs file with
  | .notFound => (env, some .sourceNotFound)
  | .readError msg => (env, some (.loadFailed msg))
  | .ok pairs => (applyPairs env pairs, none)

/-- Model of `caarlos0/env.Options`, carried through to the struct binder.
Two representative fields stand in for the full record; the loader never
inspects it, so only its identity matters. -/
structure EnvOptions where
  TagName : String := ""
  RequiredIfNoDef : Bool := false
deriving DecidableEq

/-- The loader options record (`Options` in option.go). -/
structure Options where
  SkipMissingFiles : Bool := false
  EnvOptions : EnvOptions := {}
deriving DecidableEq

/-- A functional option, `type Option func(*Options) error`: it either
produces the updated options record or an error. -/
def OptionF := Options → Except String Options

/-- `WithSkipMissingFiles` sets the skip flag and never errors. -/
def WithSkipMissingFiles : OptionF :=
  fun o => .ok { o with SkipMissingFiles := true }

/-- `WithEnvOptions` stores the given env-parser options and never errors. -/
def WithEnvOptions (eo : EnvOptions) : OptionF :=
  fun o => .ok { o with EnvOptions := eo }

/-- The option loop of `NewLoader`: apply each option in order, aborting on
the first option error. -/
def applyOptions (opts : List OptionF) (o : Options) : Except String Options :=
  match opts with
  | [] => .ok o
  | f :: rest =>
    match f o with
    | .error e => .error e
    | .ok o2 => applyOptions rest o2

/-- The environment-based loader record: the source list and the options. -/
structure Loader where
  Files : List String
  Options : Options

/-- Errors returned by `NewLoader` and `Loader.Load`, mirroring the wrapped
Go errors: `ErrEnvFilesNotSpecified`; "error creating loader: invalid
option: %w"; "error loading env file %s: %w"; "error parsing env variables
into struct: %w". -/
inductive GoError
  | envFilesNotSpecified
  | invalidOption (msg : String)
  | errorLoadingEnvFile (path : String) (inner : LoadFileError)
  | errorParsingEnv (msg : String)
deriving DecidableEq

/-- `NewLoader`: rejects an empty source list with `ErrEnvFilesNotSpecified`,
then applies the options in order to a zero-valued options record; an option
error aborts with no loader. Returns the Go pair `(*Loader, error)` as two
`Option`s. It takes no filesystem argument: construction performs no I/O. -/
def NewLoader (files : List String) (opts : List OptionF) :
    Option Loader × Option GoError :=
  if files.isEmpty then (none, some .envFilesNotSpecified)
  else
    match applyOptions opts {} with
    | .error e => (none, some (.invalidOption e))
    | .ok o => (some ⟨files, o⟩, none)

/-- The source loop inside `Loader.Load`: each file in listed order goes
through `loadEnvFile`; a missing file is skipped iff `SkipMissingFiles` is
set and the error is `ErrSourceNotFound`; any other failure aborts
immediately with the error wrapped with the file's path. -/
def loadFiles (fs : FS) (o : Options) (files : List String) (env : EnvStore) :
    EnvStore × Option GoError :=
  match files with
  | [] => (env, none)
  | file :: rest =>
    match loadEnvFile fs env file with
    | (env2, none) => loadFiles fs o rest env2
    | (env2, some e) =>
      if o.SkipMissingFiles && e.isSourceNotFound then
        loadFiles fs o rest env2
      else (env2, some (.errorLoadingEnvFile file e))

/-- `Loader.Load`: run the source loop over `l.Files`, then bind the
resulting environment into the configuration type via the abstract binder
(`env.ParseWithOptions(&cfg, l.Options.EnvOptions)`). Returns the final
environment store together with the Go pair `(*T, error)`. -/
def Loader.Load {Config : Type} (fs : FS)
    (binder : EnvOptions → EnvStore → Except String Config)
    (l : Loader) (env : EnvStore) :
    EnvStore × Option Config × Option GoError :=
  match loadFiles fs l.Options l.Files env with
  | (env2, some e) => (env2, none, some e)
  | (env2, none) =>
    match binder l.Options.EnvOptions env2 with
    | .error msg => (env2, none, some (.errorParsingEnv msg))
    | .ok cfg => (env2, some cfg, none)

/-- `goconfig.NewConfig`: invoke the loader's single `Load` operation and
return its result pair unchanged. -/
def NewConfig {C E : Type} (load : Unit → Option C × Option E) :
    Option C × Option E :=
  load ()

/-- Every file in the list exists and parses: `loadEnvFile` succeeds on it. -/
def filesOk (fs : FS) (files : List String) : Prop :=
  ∀ g ∈ files, ∃ ps, fs g = .ok ps

/-- The environment after applying, in order, the bindings of a list of
successfully-read files. -/
def applyFiles (fs : FS) (env : EnvStore) (files : List String) : EnvStore :=
  files.foldl
    (fun e g =>
      match fs g with
      | .ok ps => applyPairs e ps
      | _ => e) env

/-! Basic facts about the environment store. -/

theorem containsKey_append_single (env : EnvStore) (k k2 v2 : String) :
    containsKey (env ++ [(k2, v2)]) k = (containsKey env k || (k2 == k)) := by
  simp [containsKey, List.any_append]

theorem containsKey_setIfAbsent_of (env : EnvStore) (k k2 v2 : String)
    (h : containsKey env k = true) :
    containsKey (setIfAbsent env k2 v2) k = true := by
  unfold setIfAbsent
  split
  · exact h
  · simp [containsKey_append_single, h]

theorem containsKey_setIfAbsent_self (env : EnvStore) (k v : String) :
    containsKey (setIfAbsent env k v) k = true := by
  unfold setIfAbsent
  split
  · assumption
  · simp [containsKey_append_single]

theorem containsKey_applyPairs_of (env : EnvStore)
    (ps : List (String × String)) (k : String)
    (h : containsKey env k = true) :
    containsKey (applyPairs env ps) k = true := by
  induction ps generalizing env with
  | nil => exact h
  | cons p rest ih =>
    simpa [applyPairs, List.foldl_cons] using
      ih (setIfAbsent env p.1 p.2) (containsKey_setIfAbsent_of env k p.1 p.2 h)

theorem containsKey_applyPairs_of_mem (env : EnvStore)
    (ps : List (String × String)) (p : String × String) (hp : p ∈ ps) :
    containsKey (applyPairs env ps) p.1 = true := by
  induction ps generalizing env with
  | nil => cases hp
  | cons q rest ih =>
    rcases List.mem_cons.mp hp with h | h
    · subst h
      simpa [applyPairs, List.foldl_cons] using
        containsKey_applyPairs_of (setIfAbsent env p.1 p.2) rest p.1
          (containsKey_setIfAbsent_self env p.1 p.2)
    · simpa [applyPairs, List.foldl_cons] using ih (setIfAbsent env q.1 q.2) h

theorem setIfAbsent_of_contains (env : EnvStore) (k v : String)
    (h : containsKey env k = true) : setIfAbsent env k v = env := by
  simp [setIfAbsent, h]

theorem applyPairs_of_contains (env : EnvStore) (ps : List (String × String))
    (h : ∀ p ∈ ps, containsKey env p.1 = true) : applyPairs env ps = env := by
  induction ps with
  | nil => rfl
  | cons q rest ih =>
    have hq : setIfAbsent env q.1 q.2 = env :=
      setIfAbsent_of_contains env q.1 q.2 (h q (List.mem_cons_self q rest))
    simpa [applyPairs, List.foldl_cons, hq] using
      ih fun p hp => h p (List.mem_cons_of_mem q hp)

theorem lookupEnv_append_single (env : EnvStore) (k k2 v2 : String) :
    lookupEnv (env ++ [(k2, v2)]) k =
      (lookupEnv env k).orElse fun _ => if k2 == k then some v2 else none := by
  unfold lookupEnv
  rw [List.find?_append]
  cases h : List.find? (fun p => p.1 == k) env with
  | none => cases h2 : k2 == k <;> simp [List.find?, h2, Option.orElse]
  | some p => simp [Option.orElse]

theorem lookupEnv_setIfAbsent_of (env : EnvStore) (k k2 v2 v : String)
    (h : lookupEnv env k = some v) :
    lookupEnv (setIfAbsent env k2 v2) k = some v := by
  unfold setIfAbsent
  split
  · exact h
  · rw [lookupEnv_append_single, h]
    rfl

theorem lookupEnv_applyPairs_of (env : EnvStore)
    (ps : List (String × String)) (k v : String)
    (h : lookupEnv env k = some v) :
    lookupEnv (applyPairs env ps) k = some v := by
  induction ps generalizing env with
  | nil => exact h
  | cons p rest ih =>
    simpa [applyPairs, List.foldl_cons] using
      ih (setIfAbsent env p.1 p.2) (lookupEnv_setIfAbsent_of env k p.1 p.2 v h)

theorem lookupEnv_none_of_not_contains (env : EnvStore) (k : String)
    (h : containsKey env k = false) : lookupEnv env k = none := by
  unfold lookupEnv
  rw [List.find?_eq_none.mpr]
  · rfl
  · intro p hp
    intro hk
    have : containsKey env k = true := by
      unfold containsKey
      exact List.any_eq_true.mpr ⟨p, hp, hk⟩
    rw [this] at h
    cases h

theorem contains_of_lookupEnv_some (env : EnvStore) (k v : String)
    (h : lookupEnv env k = some v) : containsKey env k = true := by
  unfold lookupEnv at h
  cases hf : List.find? (fun p => p.1 == k) env with
  | none => rw [hf] at h; cases h
  | some p =>
    have hmem := List.mem_of_find?_eq_some hf
    have hk := List.find?_some hf
    exact List.any_eq_true.mpr ⟨p, hmem, hk⟩

theorem not_contains_of_lookupEnv_none (env : EnvStore) (k : String)
    (h : lookupEnv env k = none) : containsKey env k = false := by
  cases hc : containsKey env k with
  | false => rfl
  | true =>
    unfold containsKey at hc
    obtain ⟨p, hp, hk⟩ := List.any_eq_true.mp hc
    have : (List.find? (fun p => p.1 == k) env).isSome :=
      List.find?_isSome.mpr ⟨p, hp, hk⟩
    unfold lookupEnv at h
    rw [Option.map_eq_none'] at h
    rw [h] at this
    cases this

/-! Unfolding equations for the source loop, one per file status. -/

theorem loadFiles_cons_ok (fs : FS) (o : Options) (file : String)
    (rest : List String) (env : EnvStore) (ps : List (String × String))
    (h : fs file = .ok ps) :
    loadFiles fs o (file :: rest) env = loadFiles fs o rest (applyPairs env ps) := by
  simp [loadFiles, loadEnvFile, h]

theorem loadFiles_cons_notFound_skip (fs : FS) (o : Options) (file : String)
    (rest : List String) (env : EnvStore)
    (h : fs file = .notFound) (hs : o.SkipMissingFiles = true) :
    loadFiles fs o (file :: rest) env = loadFiles fs o rest env := by
  simp [loadFiles, loadEnvFile, h, hs, LoadFileError.isSourceNotFound]

theorem loadFiles_cons_notFound_noskip (fs : FS) (o : Options) (file : String)
    (rest : List String) (env : EnvStore)
    (h : fs file = .notFound) (hs : o.SkipMissingFiles = false) :
    loadFiles fs o (file :: rest) env =
      (env, some (.errorLoadingEnvFile file .sourceNotFound)) := by
  simp [loadFiles, loadEnvFile, h, hs]

theorem loadFiles_cons_readError (fs : FS) (o : Options) (file : String)
    (rest : List String) (env : EnvStore) (m : String)
    (h : fs file = .readError m) :
    loadFiles fs o (file :: rest) env =
      (env, some (.errorLoadingEnvFile file (.loadFailed m))) := by
  simp [loadFiles, loadEnvFile, h, LoadFileError.isSourceNotFound]

theorem loadFiles_contains_mono (fs : FS) (o : Options) (files : List String)
    (env : EnvStore) (k : String) (h : containsKey env k = true) :
    containsKey (loadFiles fs o files env).1 k = true := by
  induction files generalizing env with
  | nil => exact h
  | cons file rest ih =>
    cases hf : fs file with
    | ok ps =>
      rw [loadFiles_cons_ok fs o file rest env ps hf]
      exact ih (applyPairs env ps) (containsKey_applyPairs_of env ps k h)
    | notFound =>
      cases hs : o.SkipMissingFiles with
      | true =>
        rw [loadFiles_cons_notFound_skip fs o file rest env hf hs]
        exact ih env h
      | false =>
        rw [loadFiles_cons_notFound_noskip fs o file rest env hf hs]
        exact h
    | readError m =>
      rw [loadFiles_cons_readError fs o file rest env m hf]
      exact h

theorem loadFiles_lookup_mono (fs : FS) (o : Options) (files : List String)
    (env : EnvStore) (k v : String) (h : lookupEnv env k = some v) :
    lookupEnv (loadFiles fs o files env).1 k = some v := by
  induction files generalizing env with
  | nil => exact h
  | cons file rest ih =>
    cases hf : fs file with
    | ok ps =>
      rw [loadFiles_cons_ok fs o file rest env ps hf]
      exact ih (applyPairs env ps) (lookupEnv_applyPairs_of env ps k v h)
    | notFound =>
      cases hs : o.SkipMissingFiles with
      | true =>
        rw [loadFiles_cons_notFound_skip fs o file rest env hf hs]
        exact ih env h
      | false =>
        rw [loadFiles_cons_notFound_noskip fs o file rest env hf hs]
        exact h
    | readError m =>
      rw [loadFiles_cons_readError fs o file rest env m hf]
      exact h

theorem loadFiles_append_ok (fs : FS) (o : Options) (pre rest : List String)
    (env : EnvStore) (hok : filesOk fs pre) :
    loadFiles fs o (pre ++ rest) env = loadFiles fs o rest (applyFiles fs env pre) := by
  induction pre generalizing env with
  | nil => rfl
  | cons g tail ih =>
    obtain ⟨ps, hps⟩ := hok g (List.mem_cons_self g tail)
    rw [List.cons_append, loadFiles_cons_ok fs o g (tail ++ rest) env ps hps]
    have htail : filesOk fs tail := fun x hx => hok x (List.mem_cons_of_mem g hx)
    rw [ih (applyPairs env ps) htail]
    simp [applyFiles, List.foldl_cons, hps]

theorem loadFiles_idem (fs : FS) (o : Options) (files : List String)
    (env : EnvStore) :
    loadFiles fs o files (loadFiles fs o files env).1 = loadFiles fs o files env := by
  induction files generalizing env with
  | nil => rfl
  | cons file rest ih =>
    cases hf : fs file with
    | ok ps =>
      rw [loadFiles_cons_ok fs o file rest env ps hf]
      have hcontains : ∀ p ∈ ps,
          containsKey (loadFiles fs o rest (applyPairs env ps)).1 p.1 = true := by
        intro p hp
        exact loadFiles_contains_mono fs o rest (applyPairs env ps) p.1
          (containsKey_applyPairs_of_mem env ps p hp)
      rw [loadFiles_cons_ok fs o file rest
        (loadFiles fs o rest (applyPairs env ps)).1 ps hf]
      rw [applyPairs_of_contains _ ps hcontains]
      exact ih (applyPairs env ps)
    | notFound =>
      cases hs : o.SkipMissingFiles with
      | true =>
        rw [loadFiles_cons_notFound_skip fs o file rest env hf hs]
        rw [loadFiles_cons_notFound_skip fs o file rest
          (loadFiles fs o rest env).1 hf hs]
        exact ih env
      | false =>
        rw [loadFiles_cons_notFound_noskip fs o file rest env hf hs]
        exact loadFiles_cons_notFound_noskip fs o file rest env hf hs
    | readError m =>
      rw [loadFiles_cons_readError fs o file rest env m hf]
      exact loadFiles_cons_readError fs o file rest env m hf

theorem Load_fst {Config : Type} (fs : FS)
    (binder : EnvOptions → EnvStore → Except String Config)
    (l : Loader) (env : EnvStore) :
    (Loader.Load fs binder l env).1 = (loadFiles fs l.Options l.Files env).1 := by
  unfold Loader.Load
  rcases h : loadFiles fs l.Options l.Files env with ⟨env2, e⟩
  cases e with
  | none => cases hb : binder l.Options.EnvOptions env2 <;> simp [h, hb]
  | some e => simp [h]

theorem loadFiles_fails_of_mem_notFound (fs : FS) (o : Options)
    (files : List String) (env : EnvStore) (f : String)
    (hs : o.SkipMissingFiles = false) (hmem : f ∈ files)
    (hf : fs f = .notFound) :
    ((loadFiles fs o files env).2).isSome = true := by
  induction files generalizing env with
  | nil => cases hmem
  | cons g rest ih =>
    rcases List.mem_cons.mp hmem with h | h
    · subst h
      rw [loadFiles_cons_notFound_noskip fs o f rest env hf hs]
      rfl
    · cases hg : fs g with
      | ok ps =>
        rw [loadFiles_cons_ok fs o g rest env ps hg]
        exact ih (applyPairs env ps) h
      | notFound =>
        rw [loadFiles_cons_notFound_noskip fs o g rest env hg hs]
        rfl
      | readError m =>
        rw [loadFiles_cons_readError fs o g rest env m hg]
        rfl

theorem Load_err {Config : Type} (fs : FS)
    (binder : EnvOptions → EnvStore → Except String Config)
    (l : Loader) (env env2 : EnvStore) (e : GoError)
    (h : loadFiles fs l.Options l.Files env = (env2, some e)) :
    Loader.Load fs binder l env = (env2, none, some e) := by
  unfold Loader.Load
  rw [h]

theorem Load_eq_of_loadFiles_eq {Config : Type} (fs : FS)
    (binder : EnvOptions → EnvStore → Except String Config)
    (l l2 : Loader) (env env2 : EnvStore)
    (hOpts : l.Options = l2.Options)
    (h : loadFiles fs l.Options l.Files env = loadFiles fs l2.Options l2.Files env2) :
    Loader.Load fs binder l env = Loader.Load fs binder l2 env2 := by
  unfold Loader.Load
  rw [hOpts] at h ⊢
  rw [h]

theorem applyOptions_append (xs ys : List OptionF) (o : Options) :
    applyOptions (xs ++ ys) o =
      match applyOptions xs o with
      | .error e => .error e
      | .ok o2 => applyOptions ys o2 := by
  induction xs generalizing o with
  | nil => rfl
  | cons f rest ih =>
    rw [List.cons_append]
    cases hf : f o with
    | error e => simp [applyOptions, hf]
    | ok o2 => simp [applyOptions, hf, ih o2]

/-! Claim theorems. -/

/-- Claim C1: with insert-if-absent semantics, a key already set (by the
ambient environment or by an earlier-listed file) is never overwritten by a
later file; in particular with files F1 (defining KEY=1) listed before F2
(defining KEY=2) and KEY initially unset, after Load the environment holds
KEY=1. -/
theorem load_first_listed_wins :
    (∀ (Config : Type) (fs : FS)
        (binder : EnvOptions → EnvStore → Except String Config)
        (l : Loader) (env0 : EnvStore) (k v : String),
      lookupEnv env0 k = some v →
      lookupEnv (Loader.Load fs binder l env0).1 k = some v) ∧
    (∀ (Config : Type) (fs : FS)
        (binder : EnvOptions → EnvStore → Except String Config)
        (o : Options) (env0 : EnvStore) (F1 F2 k : String),
      fs F1 = .ok [(k, "1")] → fs F2 = .ok [(k, "2")] →
      lookupEnv env0 k = none →
      lookupEnv (Loader.Load fs binder ⟨[F1, F2], o⟩ env0).1 k = some "1") := by
  constructor
  · intro Config fs binder l env0 k v h
    rw [Load_fst]
    exact loadFiles_lookup_mono fs l.Options l.Files env0 k v h
  · intro Config fs binder o env0 F1 F2 k h1 h2 h0
    rw [Load_fst]
    show lookupEnv (loadFiles fs o [F1, F2] env0).1 k = some "1"
    rw [loadFiles_cons_ok fs o F1 [F2] env0 [(k, "1")] h1]
    have hnc : containsKey env0 k = false := not_contains_of_lookupEnv_none env0 k h0
    have happ : applyPairs env0 [(k, "1")] = env0 ++ [(k, "1")] := by
      simp [applyPairs, setIfAbsent, hnc]
    rw [happ]
    have hlook : lookupEnv (env0 ++ [(k, "1")]) k = some "1" := by
      rw [lookupEnv_append_single, h0]
      simp [Option.orElse]
    exact loadFiles_lookup_mono fs o [F2] (env0 ++ [(k, "1")]) k "1" hlook

/-- Witness for C1 at a concrete input: two files both defining K, the
first-listed value survives. -/
theorem load_first_listed_wins_witness :
    lookupEnv
      ((Loader.Load
        (fun s => if s = "f1" then .ok [("K", "1")]
          else if s = "f2" then .ok [("K", "2")] else .notFound)
        (fun (_ : EnvOptions) (_ : EnvStore) => (Except.ok () : Except String Unit))
        ⟨["f1", "f2"], {}⟩ []).1) "K" = some "1" :=
  load_first_listed_wins.2 Unit
    (fun s => if s = "f1" then .ok [("K", "1")]
      else if s = "f2" then .ok [("K", "2")] else .notFound)
    (fun _ _ => Except.ok ()) {} [] "f1" "f2" "K" (by decide) (by decide) rfl

/-- Claim C2: with SkipMissingFiles left false, a listed file that does not
exist makes Load fail — nil configuration and a non-nil error — and when the
files before it all load successfully the error is ErrSourceNotFound wrapped
with that file's path. -/
theorem load_missing_file_fails :
    ∀ (Config : Type) (fs : FS)
      (binder : EnvOptions → EnvStore → Except String Config)
      (l : Loader) (env0 : EnvStore),
      l.Options.SkipMissingFiles = false →
      ((∀ f ∈ l.Files, fs f = .notFound →
          (Loader.Load fs binder l env0).2.1 = none ∧
          ((Loader.Load fs binder l env0).2.2).isSome = true) ∧
       (∀ pre f post, l.Files = pre ++ f :: post → fs f = .notFound →
          filesOk fs pre →
          Loader.Load fs binder l env0 =
            (applyFiles fs env0 pre, none,
             some (.errorLoadingEnvFile f .sourceNotFound)))) := by
  intro Config fs binder l env0 hs
  constructor
  · intro f hmem hf
    have hsome := loadFiles_fails_of_mem_notFound fs l.Options l.Files env0 f hs hmem hf
    rcases hlf : loadFiles fs l.Options l.Files env0 with ⟨env2, oe⟩
    cases oe with
    | none => rw [hlf] at hsome; cases hsome
    | some e =>
      rw [Load_err fs binder l env0 env2 e hlf]
      exact ⟨rfl, rfl⟩
  · intro pre f post hfiles hf hok
    apply Load_err
    rw [hfiles, loadFiles_append_ok fs l.Options pre (f :: post) env0 hok]
    exact loadFiles_cons_notFound_noskip fs l.Options f post (applyFiles fs env0 pre) hf hs

/-- Witness for C2 at a concrete input: the single source a.env does not
exist and Load fails with the wrapped source-not-found error. -/
theorem load_missing_file_fails_witness :
    Loader.Load (fun _ => FileStatus.notFound)
      (fun (_ : EnvOptions) (_ : EnvStore) => (Except.ok () : Except String Unit))
      ⟨["a.env"], {}⟩ [] =
      ([], none, some (.errorLoadingEnvFile "a.env" .sourceNotFound)) :=
  (load_missing_file_fails Unit (fun _ => FileStatus.notFound)
      (fun _ _ => Except.ok ()) ⟨["a.env"], {}⟩ [] rfl).2
    [] "a.env" [] rfl rfl (fun g hg => absurd hg (List.not_mem_nil g))

/-- Claim C3: with the skip-missing-files option set, a source that does not
exist is silently skipped — Load behaves exactly as if the source were not
listed, touching neither the environment nor the outcome — while any other
filesystem access failure on a source aborts Load with the wrapped error
regardless of the skip option. -/
theorem skip_missing_semantics :
    ∀ (Config : Type) (fs : FS)
      (binder : EnvOptions → EnvStore → Except String Config)
      (o : Options) (f : String) (rest : List String) (env0 : EnvStore),
      (o.SkipMissingFiles = true → fs f = .notFound →
        Loader.Load fs binder ⟨f :: rest, o⟩ env0 =
          Loader.Load fs binder ⟨rest, o⟩ env0) ∧
      (∀ m, fs f = .readError m →
        Loader.Load fs binder ⟨f :: rest, o⟩ env0 =
          (env0, none, some (.errorLoadingEnvFile f (.loadFailed m)))) := by
  intro Config fs binder o f rest env0
  constructor
  · intro hs hf
    exact Load_eq_of_loadFiles_eq fs binder ⟨f :: rest, o⟩ ⟨rest, o⟩ env0 env0 rfl
      (loadFiles_cons_notFound_skip fs o f rest env0 hf hs)
  · intro m hf
    exact Load_err fs binder ⟨f :: rest, o⟩ env0 env0
      (.errorLoadingEnvFile f (.loadFailed m))
      (loadFiles_cons_readError fs o f rest env0 m hf)

/-- Witness for C3 at a concrete input: a missing first source is skipped and
the second source still loads; a permission-style read error aborts even with
the skip option set. -/
theorem skip_missing_semantics_witness :
    (Loader.Load
        (fun s => if s = "real.env" then .ok [("A", "1")] else .notFound)
        (fun (_ : EnvOptions) (e : EnvStore) => (Except.ok (lookupEnv e "A") :
          Except String (Option String)))
        ⟨["missing.env", "real.env"], { SkipMissingFiles := true }⟩ [] =
      Loader.Load
        (fun s => if s = "real.env" then .ok [("A", "1")] else .notFound)
        (fun (_ : EnvOptions) (e : EnvStore) => (Except.ok (lookupEnv e "A") :
          Except String (Option String)))
        ⟨["real.env"], { SkipMissingFiles := true }⟩ []) ∧
    Loader.Load (fun _ => FileStatus.readError "permission denied")
        (fun (_ : EnvOptions) (_ : EnvStore) => (Except.ok () : Except String Unit))
        ⟨["locked.env"], { SkipMissingFiles := true }⟩ [] =
      ([], none,
        some (.errorLoadingEnvFile "locked.env" (.loadFailed "permission denied"))) :=
  ⟨(skip_missing_semantics (Option String)
      (fun s => if s = "real.env" then .ok [("A", "1")] else .notFound)
      (fun _ e => Except.ok (lookupEnv e "A"))
      { SkipMissingFiles := true } "missing.env" ["real.env"] []).1
        rfl (by decide),
   (skip_missing_semantics Unit (fun _ => FileStatus.readError "permission denied")
      (fun _ _ => Except.ok ())
      { SkipMissingFiles := true } "locked.env" [] []).2
        "permission denied" rfl⟩

/-- Claim C4: NewLoader rejects an empty source list with
ErrEnvFilesNotSpecified and produces no loader, whatever the options; for a
non-empty source list whose options all apply successfully it returns a ready
loader carrying exactly those sources and the accumulated options.
(NewLoader takes no filesystem argument: no I/O at construction.) -/
theorem newLoader_empty_sources :
    (∀ opts, NewLoader [] opts = (none, some .envFilesNotSpecified)) ∧
    (∀ (files : List String) (opts : List OptionF) (o : Options),
      files ≠ [] → applyOptions opts {} = .ok o →
      NewLoader files opts = (some ⟨files, o⟩, none)) := by
  constructor
  · intro opts
    rfl
  · intro files opts o hne happ
    unfold NewLoader
    rw [if_neg]
    · rw [happ]
    · cases files with
      | nil => exact absurd rfl hne
      | cons a t => simp

/-- Witness for C4 at a concrete input: a one-element source list with the
skip option yields a ready loader. -/
theorem newLoader_empty_sources_witness :
    NewLoader ["a.env"] [WithSkipMissingFiles] =
      (some ⟨["a.env"], { SkipMissingFiles := true, EnvOptions := {} }⟩, none) :=
  newLoader_empty_sources.2 ["a.env"] [WithSkipMissingFiles]
    { SkipMissingFiles := true, EnvOptions := {} } (by simp) rfl

/-- Claim C5: Load walks the sources in listed order and aborts on the first
non-skippable failure with that source's wrapped error: the environment holds
only the bindings of the files before the failing one, the result is
independent of every later-listed source and of the binder (no binding is
attempted), and the configuration is nil. -/
theorem load_aborts_on_first_failure :
    ∀ (Config : Type) (fs : FS)
      (binder : EnvOptions → EnvStore → Except String Config)
      (o : Options) (pre post : List String) (f : String)
      (env0 : EnvStore) (e : LoadFileError),
      filesOk fs pre →
      ((fs f = .notFound ∧ e = .sourceNotFound) ∨
        (∃ m, fs f = .readError m ∧ e = .loadFailed m)) →
      (o.SkipMissingFiles = true → e ≠ .sourceNotFound) →
      Loader.Load fs binder ⟨pre ++ f :: post, o⟩ env0 =
        (applyFiles fs env0 pre, none, some (.errorLoadingEnvFile f e)) := by
  intro Config fs binder o pre post f env0 e hok hfail hns
  apply Load_err
  show loadFiles fs o (pre ++ f :: post) env0 = _
  rw [loadFiles_append_ok fs o pre (f :: post) env0 hok]
  rcases hfail with ⟨hf, he⟩ | ⟨m, hf, he⟩
  · subst he
    have hs : o.SkipMissingFiles = false := by
      cases hsk : o.SkipMissingFiles with
      | false => rfl
      | true => exact absurd rfl (hns hsk)
    exact loadFiles_cons_notFound_noskip fs o f post (applyFiles fs env0 pre) hf hs
  · subst he
    exact loadFiles_cons_readError fs o f post (applyFiles fs env0 pre) m hf

/-- Witness for C5 at a concrete input: the second of three sources fails
with a read error; the first source's binding is applied, the third source
and the binder are never reached, and Load returns nil plus the wrapped
error — even with the skip option set. -/
theorem load_aborts_on_first_failure_witness :
    Loader.Load
        (fun s => if s = "g.env" then .ok [("A", "1")]
          else if s = "b.env" then .readError "denied" else .ok [("Z", "9")])
        (fun (_ : EnvOptions) (_ : EnvStore) => (Except.ok () : Except String Unit))
        ⟨["g.env", "b.env", "c.env"], { SkipMissingFiles := true }⟩ [] =
      ([("A", "1")], none,
        some (.errorLoadingEnvFile "b.env" (.loadFailed "denied"))) :=
  load_aborts_on_first_failure Unit
    (fun s => if s = "g.env" then .ok [("A", "1")]
      else if s = "b.env" then .readError "denied" else .ok [("Z", "9")])
    (fun _ _ => Except.ok ()) { SkipMissingFiles := true }
    ["g.env"] ["c.env"] "b.env" [] (.loadFailed "denied")
    (fun g hg => by
      rcases List.mem_singleton.mp hg with rfl
      exact ⟨[("A", "1")], by decide⟩)
    (Or.inr ⟨"denied", by decide, rfl⟩)
    (fun _ => by decide)

/-- Claim C6: every Load outcome is exactly one of two shapes — a nil
configuration with a non-nil error, or a non-nil configuration with a nil
error; never both non-nil and never both nil. -/
theorem load_result_exclusive :
    ∀ (Config : Type) (fs : FS)
      (binder : EnvOptions → EnvStore → Except String Config)
      (l : Loader) (env0 : EnvStore),
      ((Loader.Load fs binder l env0).2.1 = none ∧
        ((Loader.Load fs binder l env0).2.2).isSome = true) ∨
      (((Loader.Load fs binder l env0).2.1).isSome = true ∧
        (Loader.Load fs binder l env0).2.2 = none) := by
  intro Config fs binder l env0
  unfold Loader.Load
  rcases hlf : loadFiles fs l.Options l.Files env0 with ⟨env2, oe⟩
  cases oe with
  | some e => simp
  | none =>
    cases hb : binder l.Options.EnvOptions env2 with
    | error msg => simp [hb]
    | ok cfg => simp [hb]

/-- Claim C7: a second Load on the same loader, with the files and ambient
environment unchanged, reproduces the first call's entire outcome — the
environment store is a fixpoint and the configuration value (or error) is
equal. -/
theorem load_idempotent :
    ∀ (Config : Type) (fs : FS)
      (binder : EnvOptions → EnvStore → Except String Config)
      (l : Loader) (env0 env1 : EnvStore)
      (c : Option Config) (e : Option GoError),
      Loader.Load fs binder l env0 = (env1, c, e) →
      Loader.Load fs binder l env1 = (env1, c, e) := by
  intro Config fs binder l env0 env1 c e h
  have hfst : (loadFiles fs l.Options l.Files env0).1 = env1 := by
    rw [← Load_fst fs binder l env0, h]
  have hlf : loadFiles fs l.Options l.Files env1 = loadFiles fs l.Options l.Files env0 := by
    conv_lhs => rw [← hfst]
    exact loadFiles_idem fs l.Options l.Files env0
  rw [Load_eq_of_loadFiles_eq fs binder l l env1 env0 rfl hlf]
  exact h

/-- Witness for C7 at a concrete input: after a first Load has set A=1 in
the store, running Load again from that store returns the same store,
configuration and (absent) error. -/
theorem load_idempotent_witness :
    Loader.Load (fun _ => FileStatus.ok [("A", "1")])
      (fun (_ : EnvOptions) (e : EnvStore) => (Except.ok (lookupEnv e "A") :
        Except String (Option String)))
      ⟨["f.env"], {}⟩ [("A", "1")] =
      ([("A", "1")], some (some "1"), none) :=
  load_idempotent (Option String) (fun _ => FileStatus.ok [("A", "1")])
    (fun _ e => Except.ok (lookupEnv e "A"))
    ⟨["f.env"], {}⟩ [] [("A", "1")] (some (some "1")) none (by decide)

/-- Claim C8: construction options are an ordered sequence of
option-applying functions — applying a concatenation runs the first segment
then the second — and on a conflicting field the later option wins: of two
WithEnvOptions the last one's value is the one stored, both in the options
record and in the constructed loader. -/
theorem options_applied_in_order_last_wins :
    (∀ (xs ys : List OptionF) (o : Options),
      applyOptions (xs ++ ys) o =
        match applyOptions xs o with
        | .error e => .error e
        | .ok o2 => applyOptions ys o2) ∧
    (∀ (a b : EnvOptions) (o : Options),
      applyOptions [WithEnvOptions a, WithEnvOptions b] o =
        .ok { o with EnvOptions := b }) ∧
    (∀ (files : List String) (a b : EnvOptions),
      files ≠ [] →
      NewLoader files [WithEnvOptions a, WithEnvOptions b] =
        (some ⟨files, { SkipMissingFiles := false, EnvOptions := b }⟩, none)) := by
  refine ⟨applyOptions_append, fun a b o => rfl, fun files a b hne => ?_⟩
  unfold NewLoader
  rw [if_neg]
  · rfl
  · cases files with
    | nil => exact absurd rfl hne
    | cons x t => simp

/-- Witness for C8 at a concrete input: of two WithEnvOptions calls the
second one's tag name survives in the constructed loader. -/
theorem options_applied_in_order_last_wins_witness :
    NewLoader ["a.env"]
        [WithEnvOptions { TagName := "first" }, WithEnvOptions { TagName := "second" }] =
      (some ⟨["a.env"],
        { SkipMissingFiles := false, EnvOptions := { TagName := "second" } }⟩, none) :=
  options_applied_in_order_last_wins.2.2 ["a.env"]
    { TagName := "first" } { TagName := "second" } (by simp)

/-- Claim C9: the generic entry point goconfig.NewConfig returns exactly the
pair produced by the given loader's Load operation, unchanged — in
particular for the env loader it returns Loader.Load's result pair. -/
theorem newConfig_returns_load_result :
    (∀ (C E : Type) (load : Unit → Option C × Option E),
      NewConfig load = load ()) ∧
    (∀ (Config : Type) (fs : FS)
        (binder : EnvOptions → EnvStore → Except String Config)
        (l : Loader) (env0 : EnvStore),
      NewConfig (fun _ => (Loader.Load fs binder l env0).2) =
        (Loader.Load fs binder l env0).2) :=
  ⟨fun _ _ _ => rfl, fun _ _ _ _ _ => rfl⟩

/-- Claim C10: if an option passed to NewLoader fails, construction aborts
with the wrapped option error and a nil loader, even for a non-empty source
list; no loader is produced, so options applied before the failing one have
no observable effect, and options after it are never consulted. -/
theorem newLoader_option_error_aborts :
    ∀ (files : List String) (pre post : List OptionF) (bad : OptionF)
      (o1 : Options) (msg : String),
      files ≠ [] →
      applyOptions pre {} = .ok o1 →
      bad o1 = .error msg →
      NewLoader files (pre ++ bad :: post) = (none, some (.invalidOption msg)) := by
  intro files pre post bad o1 msg hne hpre hbad
  unfold NewLoader
  rw [if_neg]
  · rw [applyOptions_append, hpre]
    simp [applyOptions, hbad]
  · cases files with
    | nil => exact absurd rfl hne
    | cons x t => simp

/-- Witness for C10 at a concrete input: a failing option between two valid
ones makes NewLoader return nil and the wrapped option error despite the
non-empty source list. -/
theorem newLoader_option_error_aborts_witness :
    NewLoader ["a.env"]
        [WithSkipMissingFiles, fun _ => Except.error "boom", WithEnvOptions {}] =
      (none, some (.invalidOption "boom")) :=
  newLoader_option_error_aborts ["a.env"] [WithSkipMissingFiles]
    [WithEnvOptions {}] (fun _ => Except.error "boom")
    { SkipMissingFiles := true } "boom" (by simp) rfl rfl
